import Mathlib

/-!
Verification of the GitHub-trending scraper (src/scraper.py, src/app.py).

The pipeline is fetch → parse → export.  Network I/O, the HTML parser of
BeautifulSoup and the file system are modelled explicitly: `fetch_html`
acts on an abstract HTTP outcome, `parse_repositories` receives the list
of elements matched by the CSS selector "article.Box-row h2.h3 a" in
document order, and `export_to_csv` acts on an explicit file-system state.
-/

/-- An element matched by the selector "article.Box-row h2.h3 a".
`text` is the element's text content (modelled as a single text node);
`href` is its optional "href" attribute. -/
structure Anchor where
  text : String
  href : Option String
deriving DecidableEq, Repr

/-- Error taxonomy of the run, following the spec's names.  In the source,
a fetch failure is a `SystemExit` raised in `fetch_html` and a parse
failure is the `KeyError` raised by `anchor['href']`. -/
inductive ScrapeError where
  | fetchError (cause : String)
  | parseError (cause : String)
deriving DecidableEq, Repr

/-- Outcome of the HTTP GET performed by `requests.get`: either a
transport-level failure (connection error, timeout, ...) or a response
with a status code and a body. -/
inductive HttpOutcome where
  | netFail (msg : String)
  | response (status : Nat) (body : String)

/-- Python `str.strip()` whitespace test, restricted to the ASCII
whitespace characters. -/
def isPySpace (c : Char) : Bool :=
  c = ' ' || c = '\t' || c = '\n' || c = '\r' || c = '\x0b' || c = '\x0c'

/-- Python `str.strip()`: drop leading and trailing whitespace. -/
def pyStrip (s : String) : String :=
  String.mk (((s.data.dropWhile isPySpace).reverse.dropWhile isPySpace).reverse)

/-- Python `str.replace(" ", "")`: remove every occurrence of the space
character (a single-character pattern, so replacement is a filter). -/
def removeSpaces (s : String) : String :=
  String.mk (s.data.filter (fun c => c != ' '))

/-- Embedding of `anchor.get_text(strip=True)` under the single-text-node
model of the matched element. -/
def getTextStrip (a : Anchor) : String :=
  pyStrip a.text

/-- `scraper.py` line 64: `name = anchor.get_text(strip=True).replace(" ", "")`. -/
def anchorName (a : Anchor) : String :=
  removeSpaces (getTextStrip a)

/-- Python slice `l[:m]` for an `int` bound `m`, including the negative
case (`l[:-n]` keeps all but the last `n` elements). -/
def pySliceStop (l : List Anchor) (m : Int) : List Anchor :=
  if 0 ≤ m then l.take m.toNat else l.take (l.length - (-m).toNat)

/-- Body of the `for anchor in anchors` loop (lines 63-67): read the
`href` attribute (a missing attribute raises `KeyError('href')`, the
spec's `ParseError`), build the name and the absolute link. -/
def extractAnchor (a : Anchor) : Except ScrapeError (String × String) :=
  match a.href with
  | some h => .ok (anchorName a, "https://github.com" ++ h)
  | none => .error (ScrapeError.parseError "href")

/-- The loop of lines 62-68: extract each anchor in order, aborting at
the first anchor whose `href` attribute is missing. -/
def extractAll : List Anchor → Except ScrapeError (List (String × String))
  | [] => .ok []
  | a :: rest =>
    match extractAnchor a with
    | .error e => .error e
    | .ok p =>
      match extractAll rest with
      | .error e => .error e
      | .ok ps => .ok (p :: ps)

/-- `parse_repositories` (lines 50-69): the BeautifulSoup selection step
is abstracted, so the function receives the list of matched anchors in
document order, slices it to `max_repos` and extracts each entry. -/
def parse_repositories (anchors : List Anchor) (max_repos : Int) :
    Except ScrapeError (List (String × String)) :=
  extractAll (pySliceStop anchors max_repos)

/-- The entry produced for an anchor whose `href` attribute is present. -/
def extractOk (a : Anchor) : String × String :=
  (anchorName a, "https://github.com" ++ a.href.getD "")

/-- Message scheme of `requests.Response.raise_for_status` for an error
status. -/
def raiseForStatusMsg (status : Nat) : String :=
  if status < 500 then toString status ++ " Client Error"
  else toString status ++ " Server Error"

/-- `fetch_html` (lines 30-48): `requests.get(url, timeout=10)` followed
by `raise_for_status()` (which raises exactly for statuses in 400..599);
any `requests.RequestException` is re-raised as a fatal error carrying
the underlying cause. -/
def fetch_html (o : HttpOutcome) : Except ScrapeError String :=
  match o with
  | .netFail msg => .error (.fetchError ("Failed to fetch data: " ++ msg))
  | .response status body =>
    if 400 ≤ status ∧ status < 600 then
      .error (.fetchError ("Failed to fetch data: " ++ raiseForStatusMsg status))
    else
      .ok body

/-- Spec-side notion of a successful HTTP status: the 2xx range. -/
def isSuccessStatus (status : Nat) : Bool :=
  200 ≤ status && status < 300

/-- Derivation of the display name following the spec's words: take the
text content, trim leading and trailing whitespace, and remove all
interior space characters. -/
def specName (t : String) : String :=
  String.mk ((((t.data.dropWhile isPySpace).reverse.dropWhile isPySpace).reverse).filter
    (fun c => c != ' '))

/-- A character is special for the CSV dialect of `csv.writer` (default:
delimiter ',', quotechar '"', lineterminator "\r\n") when it forces the
field to be quoted under QUOTE_MINIMAL. -/
def isCsvSpecial (c : Char) : Bool :=
  c = ',' || c = '"' || c = '\r' || c = '\n'

/-- Double every quote character of a field, as the writer does inside a
quoted field. -/
def escapeQuotes : List Char → List Char
  | [] => []
  | c :: cs => if c = '"' then '"' :: '"' :: escapeQuotes cs else c :: escapeQuotes cs

/-- Encode one field under QUOTE_MINIMAL: quote it exactly when it
contains a special character. -/
def encodeField (f : List Char) : List Char :=
  if f.any isCsvSpecial then '"' :: (escapeQuotes f ++ ['"']) else f

/-- Encode a list of two-field rows the way `csv.writer` does with the
default dialect: fields joined by ',', each row terminated by "\r\n"
(the file is opened with `newline=""`, so no translation occurs). -/
def encodeCsvRows : List (List Char × List Char) → List Char
  | [] => []
  | p :: rs => (encodeField p.1 ++ ',' :: encodeField p.2) ++ '\r' :: '\n' :: encodeCsvRows rs

/-- String-level CSV encoding of two-column rows. -/
def encodeCsv (rows : List (String × String)) : String :=
  String.mk (encodeCsvRows (rows.map (fun p => (p.1.data, p.2.data))))

/-- The full file content written by `export_to_csv` (lines 71-83): the
fixed header row followed by one row per entry, in input order. -/
def csvContent (repos : List (String × String)) : String :=
  encodeCsv (("Repository Name", "Repository Link") :: repos)

/-- States of the CSV reading automaton: start of line, start of field
(right after a delimiter), inside an unquoted field, inside a quoted
field, just after a quote inside a quoted field, and just after a
carriage return that ended a row (a following line feed is part of the
same terminator). -/
inductive CsvMode where
  | sol | sof | unq | q | qq | cr
deriving DecidableEq, Repr

/-- A standard tabular (CSV) reader, per RFC-4180-style rules: fields are
separated by ',', a field starting with '"' is quoted with `""` as an
escaped quote, rows are terminated by "\r\n" (a lone '\r' or '\n' is also
accepted).  `field` and `row` accumulate the current field and row. -/
def csvScan (mode : CsvMode) (field : List Char) (row : List (List Char)) :
    List Char → List (List (List Char))
  | [] =>
    match mode with
    | .sol => []
    | .cr => []
    | _ => [row ++ [field]]
  | c :: rest =>
    match mode with
    | .q =>
      if c = '"' then csvScan .qq field row rest
      else csvScan .q (field ++ [c]) row rest
    | .qq =>
      if c = '"' then csvScan .q (field ++ ['"']) row rest
      else if c = ',' then csvScan .sof [] (row ++ [field]) rest
      else if c = '\r' then (row ++ [field]) :: csvScan .cr [] [] rest
      else if c = '\n' then (row ++ [field]) :: csvScan .sol [] [] rest
      else csvScan .unq (field ++ [c]) row rest
    | .unq =>
      if c = ',' then csvScan .sof [] (row ++ [field]) rest
      else if c = '\r' then (row ++ [field]) :: csvScan .cr [] [] rest
      else if c = '\n' then (row ++ [field]) :: csvScan .sol [] [] rest
      else csvScan .unq (field ++ [c]) row rest
    | .sof =>
      if c = '"' then csvScan .q [] row rest
      else if c = ',' then csvScan .sof [] (row ++ [[]]) rest
      else if c = '\r' then (row ++ [[]]) :: csvScan .cr [] [] rest
      else if c = '\n' then (row ++ [[]]) :: csvScan .sol [] [] rest
      else csvScan .unq [c] row rest
    | .sol =>
      if c = '"' then csvScan .q [] row rest
      else if c = ',' then csvScan .sof [] (row ++ [[]]) rest
      else if c = '\r' then [] :: csvScan .cr [] [] rest
      else if c = '\n' then [] :: csvScan .sol [] [] rest
      else csvScan .unq [c] row rest
    | .cr =>
      if c = '\n' then csvScan .sol [] [] rest
      else if c = '"' then csvScan .q [] row rest
      else if c = ',' then csvScan .sof [] (row ++ [[]]) rest
      else if c = '\r' then [] :: csvScan .cr [] [] rest
      else csvScan .unq [c] row rest

/-- Read a CSV text back into its rows of fields. -/
def readCsv (s : String) : List (List String) :=
  (csvScan .sol [] [] s.data).map (fun r => r.map String.mk)

/-- The file-system state the scraper touches: whether the output
directory exists and the content of the output file, when present. -/
structure FileSystem where
  dirExists : Bool
  file : Option String
deriving DecidableEq, Repr

/-- `export_to_csv` (lines 71-83): `os.makedirs(..., exist_ok=True)`
then open the output file with mode "w" (truncate-or-create) and write
the header row followed by the entry rows. -/
def export_to_csv (fs : FileSystem) (repos : List (String × String)) : FileSystem :=
  { dirExists := true, file := some (csvContent repos) }

/-- `run` (lines 85-95): fetch, parse, export, in sequence; an error of
an earlier stage propagates and the later stages never execute.  The
BeautifulSoup selection of `parse_repositories` is abstracted as the
function `select` from the fetched markup to the matched anchors. -/
def run (select : String → List Anchor) (max_repos : Int) (o : HttpOutcome)
    (fs : FileSystem) : Except ScrapeError (List (String × String)) × FileSystem :=
  match fetch_html o with
  | .error e => (.error e, fs)
  | .ok html =>
    match parse_repositories (select html) max_repos with
    | .error e => (.error e, fs)
    | .ok repos => (.ok repos, export_to_csv fs repos)

theorem stringMk_data (s : String) : String.mk s.data = s := rfl

theorem isCsvSpecial_false_iff (c : Char) :
    isCsvSpecial c = false ↔ (c ≠ ',' ∧ c ≠ '"' ∧ c ≠ '\r' ∧ c ≠ '\n') := by
  simp [isCsvSpecial]
  tauto

theorem csvScan_q_quote (field : List Char) (row : List (List Char)) (rest : List Char) :
    csvScan .q field row ('"' :: rest) = csvScan .qq field row rest := rfl

theorem csvScan_qq_quote (field : List Char) (row : List (List Char)) (rest : List Char) :
    csvScan .qq field row ('"' :: rest) = csvScan .q (field ++ ['"']) row rest := rfl

theorem csvScan_q_char (c : Char) (hc : c ≠ '"') (field : List Char) (row : List (List Char))
    (rest : List Char) :
    csvScan .q field row (c :: rest) = csvScan .q (field ++ [c]) row rest := by
  simp [csvScan, hc]

theorem csvScan_q_escape (f : List Char) : ∀ (field : List Char) (row : List (List Char))
    (rest : List Char),
    csvScan .q field row (escapeQuotes f ++ '"' :: rest) = csvScan .qq (field ++ f) row rest := by
  induction f with
  | nil =>
    intro field row rest
    simp only [escapeQuotes, List.nil_append, List.append_nil]
    exact csvScan_q_quote field row rest
  | cons c cs ih =>
    intro field row rest
    by_cases hc : c = '"'
    · subst hc
      have he : escapeQuotes ('"' :: cs) = '"' :: '"' :: escapeQuotes cs := by
        simp [escapeQuotes]
      rw [he]
      simp only [List.cons_append]
      rw [csvScan_q_quote, csvScan_qq_quote, ih]
      simp
    · have he : escapeQuotes (c :: cs) = c :: escapeQuotes cs := by
        simp [escapeQuotes, hc]
      rw [he]
      simp only [List.cons_append]
      rw [csvScan_q_char c hc, ih]
      simp

theorem csvScan_unq_char (c : Char) (hc : c ≠ ',' ∧ c ≠ '\r' ∧ c ≠ '\n') (field : List Char)
    (row : List (List Char)) (rest : List Char) :
    csvScan .unq field row (c :: rest) = csvScan .unq (field ++ [c]) row rest := by
  simp [csvScan, hc.1, hc.2.1, hc.2.2]

theorem csvScan_unq_run (f : List Char) :
    (∀ c ∈ f, c ≠ ',' ∧ c ≠ '\r' ∧ c ≠ '\n') →
    ∀ (field : List Char) (row : List (List Char)) (rest : List Char),
    csvScan .unq field row (f ++ rest) = csvScan .unq (field ++ f) row rest := by
  induction f with
  | nil => intro _ field row rest; simp
  | cons c cs ih =>
    intro hf field row rest
    simp only [List.cons_append]
    rw [csvScan_unq_char c (hf c (by simp)), ih (fun x hx => hf x (by simp [hx]))]
    simp

theorem stringData_mk (l : List Char) : (String.mk l).data = l := rfl

theorem no_special_chars {l : List Char} (h : l.any isCsvSpecial = false) :
    ∀ c ∈ l, c ≠ ',' ∧ c ≠ '\r' ∧ c ≠ '\n' := by
  intro c hc
  simp only [List.any_eq_false] at h
  have hx : isCsvSpecial c = false := by
    have := h c hc
    simpa using this
  obtain ⟨h1, h2, h3, h4⟩ := (isCsvSpecial_false_iff c).1 hx
  exact ⟨h1, h3, h4⟩

theorem csvScan_start_quote (m : CsvMode) (hm : m = CsvMode.sol ∨ m = CsvMode.sof)
    (row : List (List Char)) (rest : List Char) :
    csvScan m [] row ('"' :: rest) = csvScan .q [] row rest := by
  rcases hm with h | h <;> subst h <;> rfl

theorem csvScan_start_comma (m : CsvMode) (hm : m = CsvMode.sol ∨ m = CsvMode.sof)
    (row : List (List Char)) (rest : List Char) :
    csvScan m [] row (',' :: rest) = csvScan .sof [] (row ++ [[]]) rest := by
  rcases hm with h | h <;> subst h <;> rfl

theorem csvScan_start_char (m : CsvMode) (hm : m = CsvMode.sol ∨ m = CsvMode.sof)
    (c : Char) (hc : isCsvSpecial c = false) (row : List (List Char)) (rest : List Char) :
    csvScan m [] row (c :: rest) = csvScan .unq [c] row rest := by
  obtain ⟨h1, h2, h3, h4⟩ := (isCsvSpecial_false_iff c).1 hc
  rcases hm with h | h <;> subst h <;> simp [csvScan, h1, h2, h3, h4]

theorem csvScan_field_comma (f : List Char) (m : CsvMode)
    (hm : m = CsvMode.sol ∨ m = CsvMode.sof) (row : List (List Char)) (rest : List Char) :
    csvScan m [] row (encodeField f ++ ',' :: rest) = csvScan .sof [] (row ++ [f]) rest := by
  by_cases hq : f.any isCsvSpecial
  · have he : encodeField f = '"' :: (escapeQuotes f ++ ['"']) := by simp [encodeField, hq]
    rw [he]
    simp only [List.cons_append, List.append_assoc, List.singleton_append]
    rw [csvScan_start_quote m hm, csvScan_q_escape]
    simp only [List.nil_append]
    rfl
  · simp only [Bool.not_eq_true] at hq
    have he : encodeField f = f := by simp [encodeField, hq]
    rw [he]
    cases f with
    | nil => simpa using csvScan_start_comma m hm row rest
    | cons c cs =>
      simp only [List.any_cons, Bool.or_eq_false_iff] at hq
      simp only [List.cons_append]
      rw [csvScan_start_char m hm c hq.1, csvScan_unq_run cs (no_special_chars hq.2)]
      simp only [List.singleton_append]
      rfl

theorem csvScan_field_endrow (f : List Char) (row : List (List Char)) (rest : List Char) :
    csvScan .sof [] row (encodeField f ++ '\r' :: '\n' :: rest)
      = (row ++ [f]) :: csvScan .sol [] [] rest := by
  by_cases hq : f.any isCsvSpecial
  · have he : encodeField f = '"' :: (escapeQuotes f ++ ['"']) := by simp [encodeField, hq]
    rw [he]
    simp only [List.cons_append, List.append_assoc, List.singleton_append]
    rw [csvScan_start_quote CsvMode.sof (Or.inr rfl), csvScan_q_escape]
    simp only [List.nil_append]
    rfl
  · simp only [Bool.not_eq_true] at hq
    have he : encodeField f = f := by simp [encodeField, hq]
    rw [he]
    cases f with
    | nil => rfl
    | cons c cs =>
      simp only [List.any_cons, Bool.or_eq_false_iff] at hq
      simp only [List.cons_append]
      rw [csvScan_start_char CsvMode.sof (Or.inr rfl) c hq.1,
        csvScan_unq_run cs (no_special_chars hq.2)]
      simp only [List.singleton_append]
      rfl

theorem csvScan_row2 (a b : List Char) (rest : List Char) :
    csvScan .sol [] [] ((encodeField a ++ ',' :: encodeField b) ++ '\r' :: '\n' :: rest)
      = [a, b] :: csvScan .sol [] [] rest := by
  simp only [List.append_assoc, List.cons_append]
  rw [csvScan_field_comma a CsvMode.sol (Or.inl rfl)]
  simp only [List.nil_append]
  rw [csvScan_field_endrow]
  simp

theorem csvScan_encodeCsvRows (rows : List (List Char × List Char)) :
    csvScan .sol [] [] (encodeCsvRows rows) = rows.map (fun p => [p.1, p.2]) := by
  induction rows with
  | nil => rfl
  | cons p rs ih =>
    simp only [encodeCsvRows]
    rw [csvScan_row2, ih]
    simp

theorem readCsv_csvContent (repos : List (String × String)) :
    readCsv (csvContent repos)
      = ["Repository Name", "Repository Link"] :: repos.map (fun p => [p.1, p.2]) := by
  unfold readCsv csvContent encodeCsv
  rw [stringData_mk, csvScan_encodeCsvRows]
  simp [List.map_map, Function.comp, stringMk_data]

theorem extractAll_ok (l : List Anchor) (h : ∀ a ∈ l, a.href.isSome = true) :
    extractAll l = .ok (l.map extractOk) := by
  induction l with
  | nil => rfl
  | cons a rest ih =>
    obtain ⟨v, hv⟩ := Option.isSome_iff_exists.mp (h a (by simp))
    simp only [extractAll, extractAnchor, hv]
    rw [ih (fun x hx => h x (by simp [hx]))]
    simp [extractOk, hv]

theorem extractAll_err (l : List Anchor) (h : ∃ a ∈ l, a.href = none) :
    extractAll l = .error (ScrapeError.parseError "href") := by
  induction l with
  | nil => simp at h
  | cons a rest ih =>
    by_cases ha : a.href = none
    · simp [extractAll, extractAnchor, ha]
    · obtain ⟨v, hv⟩ := Option.ne_none_iff_exists'.mp ha
      have hr : ∃ x ∈ rest, x.href = none := by
        obtain ⟨x, hx, hxn⟩ := h
        rcases List.mem_cons.mp hx with h1 | h1
        · subst h1; exact absurd hxn ha
        · exact ⟨x, h1, hxn⟩
      simp only [extractAll, extractAnchor, hv]
      rw [ih hr]

theorem pySliceStop_subset (l : List Anchor) (m : Int) : pySliceStop l m ⊆ l := by
  unfold pySliceStop
  split <;> exact List.take_subset _ _

/-- C1: for markup whose selector matches the anchors `anchors` (each
carrying an href, as in valid markup) and a configured `max_repos = M > 0`,
`parse_repositories` succeeds and returns exactly `min(K, M)` entries in
document order (the first `M` matches); in particular with zero matches it
returns the empty list without error. -/
theorem spec_c1 (anchors : List Anchor) (m : Int) (hm : 0 < m)
    (hh : ∀ a ∈ anchors, a.href.isSome = true) :
    parse_repositories anchors m = .ok ((anchors.take m.toNat).map extractOk)
      ∧ ((anchors.take m.toNat).map extractOk).length = min anchors.length m.toNat := by
  have h0 : 0 ≤ m := le_of_lt hm
  have hs : pySliceStop anchors m = anchors.take m.toNat := by simp [pySliceStop, h0]
  constructor
  · unfold parse_repositories
    rw [hs]
    exact extractAll_ok _ (fun a ha => hh a (List.take_subset _ _ ha))
  · simp only [List.length_map, List.length_take]
    omega

/-- Witness for C1 at a concrete two-anchor document with `max_repos = 1`. -/
theorem spec_c1_witness :
    parse_repositories [⟨"Open AI / gpt", some "/openai/gpt"⟩, ⟨"second", some "/s"⟩] 1
      = .ok [("OpenAI/gpt", "https://github.com/openai/gpt")] := by
  have h := (spec_c1 [⟨"Open AI / gpt", some "/openai/gpt"⟩, ⟨"second", some "/s"⟩] 1
    (by decide) (by decide)).1
  exact h.trans rfl

/-- C2: the extracted name is the link's text content with leading and
trailing whitespace trimmed and all interior space characters removed,
non-space separators preserved; in particular text "Open AI / gpt" yields
the name "OpenAI/gpt". -/
theorem spec_c2 :
    (∀ a : Anchor, anchorName a = specName a.text)
      ∧ anchorName ⟨"Open AI / gpt", none⟩ = "OpenAI/gpt" :=
  ⟨fun _ => rfl, rfl⟩

/-- C3: when a selected anchor lacks the href attribute, the whole run
fails with a `ParseError` and the file system is untouched — the
malformed entry is not skipped and no partial list is produced. -/
theorem spec_c3 (select : String → List Anchor) (m : Int) (o : HttpOutcome)
    (fs : FileSystem) (html : String) (hf : fetch_html o = .ok html)
    (hbad : ∃ a ∈ pySliceStop (select html) m, a.href = none) :
    run select m o fs = (.error (ScrapeError.parseError "href"), fs) := by
  have hp : parse_repositories (select html) m = .error (ScrapeError.parseError "href") :=
    extractAll_err _ hbad
  simp only [run, hf, hp]

/-- Witness for C3 at a concrete document whose single matched anchor has
no href. -/
theorem spec_c3_witness :
    run (fun _ => [⟨"x", none⟩]) 5 (HttpOutcome.response 200 "page") ⟨false, none⟩
      = (.error (ScrapeError.parseError "href"), ⟨false, none⟩) :=
  spec_c3 (fun _ => [⟨"x", none⟩]) 5 (HttpOutcome.response 200 "page") ⟨false, none⟩
    "page" rfl (by decide)

/-- C4 counterexample: status 304 is not a success (2xx) status, yet
`fetch_html` returns the body instead of failing — `raise_for_status`
only raises for statuses in 400..599 — so "non-success status implies
FetchError" is false as stated. -/
theorem spec_c4_counterexample :
    isSuccessStatus 304 = false
      ∧ fetch_html (HttpOutcome.response 304 "cached") = .ok "cached"
      ∧ ∀ e, fetch_html (HttpOutcome.response 304 "cached") ≠ .error e :=
  ⟨rfl, rfl, fun _ h => nomatch h⟩

/-- C4 amended: on a network-level failure (including timeout) the fetch
fails with a `FetchError` carrying the underlying cause, on an HTTP
status in the client/server error range 400..599 it fails with a
`FetchError`, and on any other status it returns the full response body
as text. -/
theorem spec_c4_amended :
    (∀ msg, fetch_html (HttpOutcome.netFail msg)
        = .error (.fetchError ("Failed to fetch data: " ++ msg)))
      ∧ (∀ status body, 400 ≤ status → status < 600 →
          ∃ cause, fetch_html (HttpOutcome.response status body)
            = .error (.fetchError cause))
      ∧ (∀ status body, ¬(400 ≤ status ∧ status < 600) →
          fetch_html (HttpOutcome.response status body) = .ok body) := by
  refine ⟨fun msg => rfl, fun status body h1 h2 => ?_, fun status body h => ?_⟩
  · exact ⟨"Failed to fetch data: " ++ raiseForStatusMsg status, by simp [fetch_html, h1, h2]⟩
  · simp [fetch_html, h]

/-- Witness for C4 amended: a timeout, a 404 and a 200 at concrete inputs. -/
theorem spec_c4_amended_witness :
    fetch_html (HttpOutcome.netFail "timeout")
        = .error (ScrapeError.fetchError "Failed to fetch data: timeout")
      ∧ (∃ cause, fetch_html (HttpOutcome.response 404 "not found")
          = .error (ScrapeError.fetchError cause))
      ∧ fetch_html (HttpOutcome.response 200 "body") = .ok "body" :=
  ⟨spec_c4_amended.1 "timeout", spec_c4_amended.2.1 404 "not found" (by decide) (by decide),
    spec_c4_amended.2.2 200 "body" (by decide)⟩

/-- C5: when the fetch fails, the run aborts before the parser or the
exporter execute — the error propagates and the file system (hence the
output file) is unchanged. -/
theorem spec_c5 (select : String → List Anchor) (m : Int) (o : HttpOutcome)
    (fs : FileSystem) (e : ScrapeError) (h : fetch_html o = .error e) :
    run select m o fs = (.error e, fs) := by
  simp only [run, h]

/-- Witness for C5 at a concrete network failure. -/
theorem spec_c5_witness :
    run (fun _ => []) 5 (HttpOutcome.netFail "timeout") ⟨false, none⟩
      = (.error (ScrapeError.fetchError "Failed to fetch data: timeout"), ⟨false, none⟩) :=
  spec_c5 (fun _ => []) 5 (HttpOutcome.netFail "timeout") ⟨false, none⟩
    (ScrapeError.fetchError "Failed to fetch data: timeout") rfl

/-- C6: the exported file holds the header ["Repository Name",
"Repository Link"] followed by exactly the given rows in order, and a
standard tabular reader reads them back verbatim (quoting included);
exporting twice leaves only the second run's entries (full overwrite). -/
theorem spec_c6 :
    (∀ (fs : FileSystem) (repos : List (String × String)),
        (export_to_csv fs repos).file = some (csvContent repos))
      ∧ (∀ repos : List (String × String),
          readCsv (csvContent repos)
            = ["Repository Name", "Repository Link"] :: repos.map (fun p => [p.1, p.2]))
      ∧ (∀ (fs : FileSystem) (e1 e2 : List (String × String)),
          export_to_csv (export_to_csv fs e1) e2 = export_to_csv fs e2) :=
  ⟨fun _ _ => rfl, readCsv_csvContent, fun _ _ _ => rfl⟩

/-- C7: a matched anchor with relative path "/owner/repo" yields the link
"https://github.com/owner/repo" exactly; in general the link is the fixed
scheme-and-host prefixed to the href value. -/
theorem spec_c7 :
    (∀ (t rel : String), extractAnchor ⟨t, some rel⟩
        = .ok (anchorName ⟨t, some rel⟩, "https://github.com" ++ rel))
      ∧ parse_repositories [⟨"owner / repo", some "/owner/repo"⟩] 5
        = .ok [("owner/repo", "https://github.com/owner/repo")] :=
  ⟨fun _ _ => rfl, rfl⟩

/-- C8 counterexample: with `max_repos = -1` and a matched anchor without
href among the sliced entries, `parse_repositories` does fail, so "for
every html input and non-positive max_repos it does not raise" is false
as stated. -/
theorem spec_c8_counterexample :
    parse_repositories [⟨"a", none⟩, ⟨"b", some "/b"⟩, ⟨"c", some "/c"⟩] (-1)
      = .error (ScrapeError.parseError "href") := rfl

/-- C8 amended: for anchors that all carry an href, a non-positive
`max_repos` never fails: with 0 the result is the empty list, and with a
negative bound Python slice semantics keep all matched entries except the
last `|max_repos|`. -/
theorem spec_c8_amended (anchors : List Anchor) (m : Int) (hm : m < 0)
    (hh : ∀ a ∈ anchors, a.href.isSome = true) :
    parse_repositories anchors 0 = .ok []
      ∧ parse_repositories anchors m
        = .ok ((anchors.take (anchors.length - (-m).toNat)).map extractOk) := by
  constructor
  · simp [parse_repositories, pySliceStop, extractAll]
  · have h0 : ¬(0 ≤ m) := not_le.mpr hm
    have hs : pySliceStop anchors m = anchors.take (anchors.length - (-m).toNat) := by
      simp [pySliceStop, h0]
    unfold parse_repositories
    rw [hs]
    exact extractAll_ok _ (fun a ha => hh a (List.take_subset _ _ ha))

/-- Witness for C8 amended at three anchors and `max_repos = -1`. -/
theorem spec_c8_amended_witness :
    parse_repositories [⟨"a", some "/a"⟩, ⟨"b", some "/b"⟩, ⟨"c", some "/c"⟩] 0 = .ok []
      ∧ parse_repositories [⟨"a", some "/a"⟩, ⟨"b", some "/b"⟩, ⟨"c", some "/c"⟩] (-1)
        = .ok [("a", "https://github.com/a"), ("b", "https://github.com/b")] := by
  have h := spec_c8_amended [⟨"a", some "/a"⟩, ⟨"b", some "/b"⟩, ⟨"c", some "/c"⟩] (-1)
    (by decide) (by decide)
  exact ⟨h.1, h.2.trans rfl⟩

/-- C9: the fixed prefix "https://github.com" is prepended to the href
value unconditionally, with no relative-path check: an href that is
already an absolute URL yields the malformed concatenation of the two. -/
theorem spec_c9 :
    (∀ (t hrefVal : String), extractAnchor ⟨t, some hrefVal⟩
        = .ok (anchorName ⟨t, some hrefVal⟩, "https://github.com" ++ hrefVal))
      ∧ parse_repositories [⟨"evil", some "https://evil.com/x"⟩] 5
        = .ok [("evil", "https://github.comhttps://evil.com/x")] :=
  ⟨fun _ _ => rfl, rfl⟩

/-- C10: whenever every matched anchor carries an href, the parse
terminates with a result list and no error, for any `max_repos`; with no
matches (as for arbitrary non-HTML text) it returns the empty list. -/
theorem spec_c10 (anchors : List Anchor) (m : Int)
    (hh : ∀ a ∈ anchors, a.href.isSome = true) :
    (∃ repos, parse_repositories anchors m = .ok repos)
      ∧ parse_repositories [] m = .ok [] := by
  constructor
  · refine ⟨(pySliceStop anchors m).map extractOk, ?_⟩
    exact extractAll_ok _ (fun a ha => hh a (pySliceStop_subset anchors m ha))
  · unfold parse_repositories pySliceStop
    split <;> simp [extractAll]

/-- Witness for C10 at a concrete one-anchor document and the empty
document. -/
theorem spec_c10_witness :
    (∃ repos, parse_repositories [⟨" Open AI ", some "/openai"⟩] 3 = .ok repos)
      ∧ parse_repositories [] 3 = .ok [] :=
  spec_c10 [⟨" Open AI ", some "/openai"⟩] 3 (by decide)
